import Mathlib

/-!
# Stretto: mode switching, keybinding wiring and navigation handlers

A shallow embedding of `keybinding.go`.  Go pointers to the gui and to a view
become explicit state passing: every handler takes the gui and the view and
returns the updated gui, the updated view and the Go `error` value
(`none` is `nil`).  The gui record holds what the handlers reach through
`*gocui.Gui` (declared modes, current mode, view names in render order, the
focused view, the keybinding table); the contents of a view (buffer, cursor,
origin, size) live in the `View` record handed to the handler.
-/

namespace Stretto

/-! ## Data model -/

/-- Go strings are byte sequences: `len`, slicing and `strings.Index` all count bytes. -/
abbrev GoString := List UInt8

/-- The error values of the program: Go's `error` is `Option Error`, `none` being `nil`. -/
inductive Error where
  | ErrQuit
  | ErrUnknownView
  | ErrUnknownMode
  | EOF
  | invalidPoint
  | other (code : Nat)
  deriving DecidableEq, Repr

/-- The keys used by `initKeybindings`. -/
inductive Key where
  | KeyCtrlC | KeyCtrlT | KeyHome | KeyEnd | KeyPgup | KeyPgdn | KeyCtrlS | KeyTab | KeyCtrlF
  deriving DecidableEq, Repr

/-- The key modifiers of the toolkit. -/
inductive Modifier where
  | ModNone | ModAlt
  deriving DecidableEq, Repr

/-- The handler values that `initKeybindings` registers: the top-level functions
of `keybinding.go` and the closures returned by `switchModeTo` and
`currTopViewHandler`, each closure carrying the name it captured. -/
inductive Handler where
  | quit
  | switchModeTo (name : String)
  | currTopViewHandler (name : String)
  | cursorHome
  | cursorEnd
  | goPgUp
  | goPgDown
  | saveMain
  | search
  deriving DecidableEq, Repr

/-- One entry of the keybinding table: `(mode, view name or "", key, modifier, handler)`. -/
structure Keybinding where
  mode : String
  viewName : String
  key : Key
  mod : Modifier
  h : Handler
  deriving DecidableEq, Repr

/-- The part of `*gocui.Gui` the handlers reach: declared modes, the current mode,
the names of the views in render order (last one on top), the focused view and
the keybinding table. -/
structure Gui where
  modes : List String
  currentMode : Option String
  views : List String
  currentView : Option String
  keybindings : List Keybinding
  deriving DecidableEq, Repr

/-- The part of `*gocui.View` the handlers reach: name, text buffer (one byte
string per line), cursor, scroll origin and visible size. -/
structure View where
  name : String
  lines : List GoString
  cx : Int
  cy : Int
  ox : Int
  oy : Int
  sizeX : Int
  sizeY : Int
  deriving DecidableEq, Repr

/-- The result of a keybinding handler called on a non-nil view: the gui and the view
after the call and the returned `error`.  Handlers that test `v != nil` take and
return an `Option View` instead, `none` being the nil view. -/
abbrev HandlerResult := Gui × View × Option Error

/-! ## Toolkit interface (package `gocui`, consumed by `keybinding.go`) -/

/-- Modelled from the spec: the toolkit's `Gui.SetMode` is not part of the sources;
it declares a mode (section 3, "declared mode"); declaring a mode twice keeps one
declaration. -/
def Gui.SetMode (g : Gui) (name : String) : Gui :=
  if name ∈ g.modes then g else { g with modes := g.modes ++ [name] }

/-- Modelled from the spec: the toolkit's `Gui.SetCurrentMode` is not part of the
sources; section 4.1: "sets current mode to `target`; fails (refuses the transition)
if `target` is not a declared mode". -/
def Gui.SetCurrentMode (g : Gui) (name : String) : Gui × Option Error :=
  if name ∈ g.modes then ({ g with currentMode := some name }, none)
  else (g, some Error.ErrUnknownMode)

/-- Modelled from the spec: the toolkit's `Gui.SetCurrentView` is not part of the
sources; section 4.1: "transfers input focus ...; fails if no view with that name
exists". -/
def Gui.SetCurrentView (g : Gui) (name : String) : Gui × Option Error :=
  if name ∈ g.views then ({ g with currentView := some name }, none)
  else (g, some Error.ErrUnknownView)

/-- Modelled from the spec: the toolkit's `Gui.SetViewOnTop` is not part of the
sources; section 4.1: "raises the named view to the top of the render stack; fails
if no view with that name exists".  The render stack is the list of view names,
the last one on top. -/
def Gui.SetViewOnTop (g : Gui) (name : String) : Gui × Option Error :=
  if name ∈ g.views then ({ g with views := g.views.erase name ++ [name] }, none)
  else (g, some Error.ErrUnknownView)

/-- Modelled from the spec: the toolkit's `Gui.SetKeybinding` is not part of the
sources; section 6: "register(mode, view-name-or-wildcard, key, modifier, handler)".
The entry is appended to the table; the spec gives no failure condition, so the
registration always succeeds. -/
def Gui.SetKeybinding (g : Gui) (mode viewName : String) (key : Key) (mod : Modifier)
    (h : Handler) : Gui × Option Error :=
  ({ g with keybindings := g.keybindings ++ [⟨mode, viewName, key, mod, h⟩] }, none)

/-- The handlers eligible for a key press: the entries of the table registered for
the mode, the key and the modifier, on the wildcard view `""` or on the focused
view, in registration order. -/
def Gui.boundHandlers (g : Gui) (mode : String) (view : Option String) (key : Key)
    (mod : Modifier) : List Handler :=
  (g.keybindings.filter fun kb =>
    kb.mode == mode && kb.key == key && kb.mod == mod &&
      (kb.viewName == "" || view == some kb.viewName)).map Keybinding.h

/-- The function `View.Name`. -/
def View.Name (v : View) : String := v.name

/-- The function `View.Cursor`. -/
def View.Cursor (v : View) : Int × Int := (v.cx, v.cy)

/-- The function `View.Origin`. -/
def View.Origin (v : View) : Int × Int := (v.ox, v.oy)

/-- The function `View.Size`. -/
def View.Size (v : View) : Int × Int := (v.sizeX, v.sizeY)

/-- Modelled from the spec: the toolkit's `View.SetCursor` is not part of the
sources; section 6 lists "cursor get/set/move" and gives no failure condition, so
the setter always succeeds. -/
def View.SetCursor (v : View) (x y : Int) : View × Option Error :=
  ({ v with cx := x, cy := y }, none)

/-- Modelled from the spec: the toolkit's `View.SetOrigin` is not part of the
sources; section 6 lists "scroll-origin get/set" and gives no failure condition, so
the setter always succeeds. -/
def View.SetOrigin (v : View) (x y : Int) : View × Option Error :=
  ({ v with ox := x, oy := y }, none)

/-- Modelled from the spec: the toolkit's `View.Clear` is not part of the sources;
section 6: "buffer clear". -/
def View.Clear (v : View) : View := { v with lines := [] }

/-- Modelled from the spec: the toolkit's `View.MoveCursor` is not part of the
sources; section 6: "cursor get/set/move".  The move is a relative displacement of
the cursor by `(dx, dy)`. -/
def View.MoveCursor (v : View) (dx dy : Int) (_writeMode : Bool) : View :=
  { v with cx := v.cx + dx, cy := v.cy + dy }

/-- Modelled from the spec: the toolkit's `View.Line` is not part of the sources;
section 6: "line-at-row lookup".  Row `y` of the buffer, or an error when the
buffer has no such row. -/
def View.Line (v : View) (y : Int) : GoString × Option Error :=
  if 0 ≤ y ∧ y < v.lines.length then (v.lines.getD y.toNat [], none)
  else ([], some Error.invalidPoint)

/-! ## `keybinding.go` -/

/-- The mode `file`. -/
def fileMode : String := "file"

/-- The mode `edit`. -/
def editMode : String := "edit"

/-- The mode `cmd`. -/
def cmdMode : String := "cmd"

/-- The function `initModes`. -/
def initModes (g : Gui) : Gui :=
  let g := g.SetMode cmdMode
  let g := g.SetMode fileMode
  let g := g.SetMode editMode
  g

/-- Go's `if err := f(); err != nil { return err }` followed by the rest of the
function body. -/
def orReturn (r : Gui × Option Error) (rest : Gui → Gui × Option Error) : Gui × Option Error :=
  match r with
  | (g, some err) => (g, some err)
  | (g, none) => rest g

/-- The function `initKeybindings`. -/
def initKeybindings (g : Gui) : Gui × Option Error :=
  orReturn (g.SetKeybinding fileMode "" .KeyCtrlC .ModNone .quit) fun g =>
  orReturn (g.SetKeybinding fileMode "" .KeyCtrlC .ModNone .quit) fun g =>
  orReturn (g.SetKeybinding fileMode "" .KeyCtrlT .ModNone (.currTopViewHandler "cmdline")) fun g =>
  orReturn (g.SetKeybinding fileMode "cmdline" .KeyCtrlT .ModNone (.currTopViewHandler "main")) fun g =>
  orReturn (g.SetKeybinding fileMode "" .KeyHome .ModNone .cursorHome) fun g =>
  orReturn (g.SetKeybinding fileMode "" .KeyEnd .ModNone .cursorEnd) fun g =>
  orReturn (g.SetKeybinding fileMode "" .KeyPgup .ModNone .goPgUp) fun g =>
  orReturn (g.SetKeybinding fileMode "" .KeyPgdn .ModNone .goPgDown) fun g =>
  orReturn (g.SetKeybinding fileMode "main" .KeyCtrlS .ModNone .saveMain) fun g =>
  orReturn (g.SetKeybinding fileMode "main" .KeyTab .ModNone (.switchModeTo editMode)) fun g =>
  orReturn (g.SetKeybinding fileMode "main" .KeyCtrlF .ModNone .search) fun g =>
  orReturn (g.SetKeybinding editMode "main" .KeyTab .ModNone (.switchModeTo fileMode)) fun g =>
  orReturn (g.SetKeybinding editMode "" .KeyCtrlC .ModNone .quit) fun g =>
  let g := (g.SetCurrentMode fileMode).1
  (g, none)

/-- The function `quit`. -/
def quit (g : Gui) (v : Option View) : Gui × Option View × Option Error :=
  (g, v, some Error.ErrQuit)

/-- The function `switchModeTo`: the handler returned for `name`, applied to the gui
and a (non-nil) view. -/
def switchModeTo (name : String) (g : Gui) (v : View) : HandlerResult :=
  match g.SetCurrentMode name with
  | (g, some err) => (g, v, some err)
  | (g, none) =>
    let v := if v.Name == "cmdline" then (v.SetCursor 0 0).1.Clear else v
    if name == "cmd" then
      match g.SetCurrentView name with
      | (g, some err) => (g, v, some err)
      | (g, none) => (g, v, none)
    else (g, v, none)

/-- The function `currTopViewHandler`: the handler returned for `name`, applied to the
gui and a (non-nil) view. -/
def currTopViewHandler (name : String) (g : Gui) (v : View) : HandlerResult :=
  match g.SetCurrentView name with
  | (g, some err) => (g, v, some err)
  | (g, none) =>
    match g.SetViewOnTop name with
    | (g, some err) => (g, v, some err)
    | (g, none) => (g, v, none)

/-- The function `cursorHome`. -/
def cursorHome (g : Gui) (v : Option View) : Gui × Option View × Option Error :=
  match v with
  | none => (g, none, none)
  | some v =>
    let (cx, _) := v.Cursor
    (g, some (v.MoveCursor (-cx) 0 true), none)

/-- The function `cursorEnd`. -/
def cursorEnd (g : Gui) (v : Option View) : Gui × Option View × Option Error :=
  match v with
  | none => (g, none, none)
  | some v =>
    let (cx, cy) := v.Cursor
    let (l, _) := v.Line cy
    (g, some (v.MoveCursor ((l.length : Int) - cx) 0 true), none)

/-- The function `goPgUp`. -/
def goPgUp (g : Gui) (v : Option View) : Gui × Option View × Option Error :=
  match v with
  | none => (g, none, none)
  | some v =>
    let (ox, oy) := v.Origin
    let (_, y) := v.Size
    let yOffset := oy - y
    if yOffset < 0 then
      let v := (v.SetOrigin ox 0).1
      if oy == 0 then
        let (_, cy) := v.Cursor
        (g, some (v.MoveCursor 0 (-cy) false), none)
      else (g, some v, none)
    else
      let v := (v.SetOrigin ox yOffset).1
      (g, some (v.MoveCursor 0 (-yOffset) false), none)

/-- The function `goPgDown`. -/
def goPgDown (g : Gui) (v : Option View) : Gui × Option View × Option Error :=
  match v with
  | none => (g, none, none)
  | some v =>
    let (ox, oy) := v.Origin
    let (_, y) := v.Size
    match v.SetOrigin ox (oy + y) with
    | (v, some err) => (g, some v, some err)
    | (v, none) => (g, some (v.MoveCursor 0 0 false), none)

/-- A run-time fault of the Go program, or a loop of the model that ran out of fuel. -/
inductive Fault where
  | sliceBounds
  | outOfFuel
  deriving DecidableEq, Repr

/-- Go's slice expression `s[k:]`: it faults unless `0 ≤ k ≤ len(s)`. -/
def sliceFrom (s : GoString) (k : Int) : Except Fault GoString :=
  if 0 ≤ k ∧ k ≤ s.length then .ok (s.drop k.toNat) else .error .sliceBounds

/-- The scan of `strings.Index`: the offset of the first suffix of `s` that starts
with `sub`, counted from `k`, or `-1`. -/
def indexFrom (sub : GoString) : GoString → Nat → Int
  | [], k => if sub.isPrefixOf [] then (k : Int) else -1
  | c :: s, k => if sub.isPrefixOf (c :: s) then (k : Int) else indexFrom sub s (k + 1)

/-- Go's `strings.Index(s, sub)`: the byte index of the first occurrence of `sub`
in `s`, or `-1` when there is none. -/
def stringsIndex (s sub : GoString) : Int := indexFrom sub s 0

/-- The byte string `"deux"` searched for by `search`. -/
def pattern : GoString := [0x64, 0x65, 0x75, 0x78]

/-- The `for` loop of `search`, from iteration `i` on, with the current values of
the locals `x` and `sameline`; `y` is the cursor row read before the loop. -/
def searchLoop (v : View) (y : Int) : Nat → Int → Int → Int → Except Fault (View × Option Error)
  | 0, _, _, _ => .error .outOfFuel
  | fuel + 1, i, x, sameline =>
    let (s, err) := v.Line (y + i)
    if err == none then
      if x < (s.length : Int) - 1 then
        match sliceFrom s (x + sameline) with
        | .error f => .error f
        | .ok t =>
          let indice := stringsIndex t pattern
          if indice ≥ 0 then
            if sameline == 0 then
              let (x, _) := v.Cursor
              .ok (v.MoveCursor (indice + sameline - x) i false, none)
            else
              .ok (v.MoveCursor (indice + sameline) i false, none)
          else searchLoop v y fuel (i + 1) 0 0
      else searchLoop v y fuel (i + 1) 0 0
    else .ok (v, none)

/-- The function `search`, with the number of loop iterations bounded by `fuel`. -/
def searchFuel (fuel : Nat) (g : Gui) (v : View) : Except Fault HandlerResult :=
  let (x, y) := v.Cursor
  match searchLoop v y fuel 0 x 1 with
  | .error f => .error f
  | .ok (v, err) => .ok (g, v, err)

/-- The function `search`: the loop reads one row per iteration and stops at the first
row the buffer does not have, so one iteration more than the buffer has rows is enough. -/
def search (g : Gui) (v : View) : Except Fault HandlerResult :=
  searchFuel (v.lines.length + 1) g v

/-- The pattern occurs in `s` starting at column `c`: it is a prefix of `s[c:]`. -/
def OccursAt (s : GoString) (c : Nat) : Prop := pattern.isPrefixOf (s.drop c) = true

/-- The buffer has row `r` and the pattern occurs in its line starting at column `c`. -/
def LineHas (v : View) (r : Int) (c : Nat) : Prop :=
  (v.Line r).2 = none ∧ OccursAt (v.Line r).1 c

/-- Row `r`, column `c` is a match for a search started at the cursor of `v`: the
row is at or below the cursor row, the buffer has it, the pattern starts at column
`c` of its line, and on the cursor row itself the column is strictly right of the
cursor. -/
def IsMatch (v : View) (r : Int) (c : Nat) : Prop :=
  v.cy ≤ r ∧ LineHas v r c ∧ (r = v.cy → v.cx < c)

/-- The match on the first matching row, at the leftmost matching column of that row. -/
def IsFirstMatch (v : View) (r : Int) (c : Nat) : Prop :=
  IsMatch v r c ∧ ∀ r2 c2, IsMatch v r2 c2 → r < r2 ∨ (r = r2 ∧ c ≤ c2)

/-! ## `saveMain` and the file it writes -/

/-- One operation on the file system. -/
inductive FileOp where
  | openFile (path : String)
  | write (p : List UInt8)
  | truncate (size : Int)
  | close
  deriving DecidableEq, Repr

/-- The file named by `currentFile` as `saveMain` sees it: whether `os.OpenFile`
fails, the bytes of the file, the write offset of the descriptor, the outcomes of
the successive `Write` calls still to come (none left: success), whether
`Truncate` fails, and the operations performed so far. -/
structure FileSys where
  openErr : Option Error
  content : List UInt8
  offset : Nat
  writeErrs : List (Option Error)
  truncErr : Option Error
  ops : List FileOp
  deriving DecidableEq, Repr

/-- The outcome of one `v.Read(p)`: the `n` bytes delivered into `p` and the error. -/
abbrev ReadResult := List UInt8 × Option Error

/-- Go's `os.OpenFile(path, os.O_WRONLY, 0666)`: the file is neither created nor
truncated, and writing starts at offset 0. -/
def FileSys.OpenFile (fs : FileSys) (path : String) : FileSys × Option Error :=
  match fs.openErr with
  | some err => ({ fs with ops := fs.ops ++ [.openFile path] }, some err)
  | none => ({ fs with offset := 0, ops := fs.ops ++ [.openFile path] }, none)

/-- Go's `f.Write(p)`: the bytes replace those at the write offset and extend the file
past its end; a failing write leaves the file as it is. -/
def FileSys.Write (fs : FileSys) (p : List UInt8) : FileSys × Option Error :=
  match fs.writeErrs.headD none with
  | some er => ({ fs with writeErrs := fs.writeErrs.tail, ops := fs.ops ++ [.write p] }, some er)
  | none =>
    ({ fs with
        content := fs.content.take fs.offset ++ List.replicate (fs.offset - fs.content.length) 0
          ++ p ++ fs.content.drop (fs.offset + p.length),
        offset := fs.offset + p.length,
        writeErrs := fs.writeErrs.tail,
        ops := fs.ops ++ [.write p] }, none)

/-- Go's `f.Truncate(size)`: the file is cut, or zero-filled, to `size` bytes; a negative
size is an error. -/
def FileSys.Truncate (fs : FileSys) (size : Int) : FileSys × Option Error :=
  if size < 0 then ({ fs with ops := fs.ops ++ [.truncate size] }, some (.other 22))
  else
    match fs.truncErr with
    | some err => ({ fs with ops := fs.ops ++ [.truncate size] }, some err)
    | none =>
      ({ fs with
          content := fs.content.take size.toNat
            ++ List.replicate (size.toNat - fs.content.length) 0,
          ops := fs.ops ++ [.truncate size] }, none)

/-- Go's `f.Close()`. -/
def FileSys.Close (fs : FileSys) : FileSys := { fs with ops := fs.ops ++ [.close] }

/-- Go's `binary.Size(p[0])` for a byte. -/
def binarySizeByte : Int := 1

/-- The `for` loop of `saveMain`.  `reads` lists the outcomes of the successive
`v.Read(p)` calls; a list that ends without an error describes no complete run. -/
def saveLoop : List ReadResult → FileSys → Int → Option (FileSys × Option Error)
  | [], _, _ => none
  | (p, err) :: reads, f, size =>
    let n := p.length
    let size := size + (n : Int)
    let (f, er) := if n > 0 then f.Write p else (f, none)
    if n > 0 ∧ err ≠ none then some (f, er)
    else if err = some Error.EOF then some ((f.Truncate (size * binarySizeByte)).1, none)
    else if err ≠ none then some (f, err)
    else saveLoop reads f size

/-- The function `saveMain`: `currentFile` is the package-level variable, `fs` the file system
and `reads` the outcomes of the view's `Read` calls after `Rewind`. -/
def saveMain (currentFile : String) (fs : FileSys) (reads : List ReadResult) :
    Option (FileSys × Option Error) :=
  if currentFile == "" then some (fs, none)
  else
    match fs.OpenFile currentFile with
    | (fs, some err) => some (fs, some err)
    | (f, none) =>
      match saveLoop reads f (-1) with
      | none => none
      | some (f, err) => some (f.Close, err)

/-! ## The command interpreter (`validateCmd`) -/

/-- The errors the command interpreter reports. -/
inductive CmdError where
  | ErrUnknownCommand
  | ErrMissingFilename
  | ErrMissingPattern
  | ErrWrapArgument
  | ErrUnexpectedArgument
  deriving DecidableEq, Repr

/-- Modelled from the spec: the command table is not part of the sources; section 3,
"Command": a name, a minimum and maximum argument count (no maximum where section
4.2 says extra arguments are not enforced) and the error reported for a missing
argument, which is never consulted for a command without a required argument. -/
structure Command where
  name : String
  minArgs : Nat
  maxArgs : Option Nat
  missing : CmdError
  deriving DecidableEq, Repr

/-- Modelled from the spec: the command table is not part of the sources; the rows
of the table of section 4.2, in its order. -/
def commands : List Command :=
  [ ⟨"o", 1, some 1, .ErrMissingFilename⟩,
    ⟨"c!", 0, none, .ErrUnexpectedArgument⟩,
    ⟨"repall", 2, some 2, .ErrMissingPattern⟩,
    ⟨"setwrap", 1, some 1, .ErrWrapArgument⟩,
    ⟨"q!", 0, none, .ErrUnexpectedArgument⟩,
    ⟨"qs", 0, none, .ErrUnexpectedArgument⟩,
    ⟨"sa", 1, some 1, .ErrMissingFilename⟩,
    ⟨"sc", 0, some 1, .ErrMissingFilename⟩,
    ⟨"sq", 0, some 1, .ErrMissingFilename⟩ ]

/-- The state the interpreter works on: the focused view, the messages written to
the error view, the title of the main view, and the operations executed, each with
its arguments. -/
structure Session where
  focus : String
  errorView : List CmdError
  title : String
  executed : List (String × List String)
  deriving DecidableEq, Repr

/-- The tokens of a line split at white space, `cur` holding the characters of the
token being read, last one first. -/
def fieldsAux (cur : List Char) : List Char → List String
  | [] => if cur.isEmpty then [] else [String.mk cur.reverse]
  | c :: cs =>
    if c.isWhitespace then
      if cur.isEmpty then fieldsAux [] cs else String.mk cur.reverse :: fieldsAux [] cs
    else fieldsAux (c :: cur) cs

/-- Modelled from the spec: the tokenizer is not part of the sources; section 4.2
step 1: "Tokenize `line` by whitespace". -/
def fields (line : String) : List String := fieldsAux [] line.toList

/-- Writing an error to the error view. -/
def Session.report (s : Session) (e : CmdError) : Session :=
  { s with errorView := s.errorView ++ [e] }

/-- Modelled from the spec: the commands' operations are not part of the sources;
section 4.2 step 4 and its table.  The operation is recorded as executed; `setwrap`
with a value that is no boolean reports the wrap-argument error, `sc` and `sq`
without a destination report the missing filename, and `q!`, `qs` and `sq` return
the termination signal. -/
def execute (s : Session) (c : Command) (args : List String) : Session × Option Error :=
  if c.name == "setwrap" && !(args == ["true"] || args == ["false"]) then
    (s.report .ErrWrapArgument, none)
  else if (c.name == "sc" || c.name == "sq") && args.isEmpty && s.title == "" then
    (s.report .ErrMissingFilename, none)
  else
    let s := { s with executed := s.executed ++ [(c.name, args)] }
    if c.name == "q!" || c.name == "qs" || c.name == "sq" then (s, some Error.ErrQuit)
    else (s, none)

/-- Modelled from the spec: `validateCmd` is not part of the sources; section 4.2,
steps 1 to 4.  The result is `none` for the fatal precondition failure (another
view than the command-entry view has the focus). -/
def validateCmd (s : Session) (line : String) : Option (Session × Option Error) :=
  if s.focus != "cmdline" then none
  else
    match fields line with
    | [] => some (s, none)
    | name :: args =>
      match commands.find? fun c => c.name == name with
      | none => some (s.report .ErrUnknownCommand, none)
      | some c =>
        if args.length < c.minArgs then some (s.report c.missing, none)
        else if c.maxArgs.any fun m => m < args.length then
          some (s.report .ErrUnexpectedArgument, none)
        else some (execute s c args)

/-- The number of arguments the claim gives for the commands `o`, `sa`, `repall` and
`setwrap`: two for `repall`, one for the others. -/
def requiredArgs (name : String) : Nat := if name = "repall" then 2 else 1

/-- The missing-argument error the claim gives for the commands `o`, `sa`, `repall`
and `setwrap`. -/
def missingArgError (name : String) : CmdError :=
  if name = "repall" then .ErrMissingPattern
  else if name = "setwrap" then .ErrWrapArgument
  else .ErrMissingFilename

/-! ## Sample states -/

/-- A gui after start-up: the three modes declared, `file` current, the views "main",
"cmdline" and "error" created, "main" focused, the binding table left out. -/
def sampleGui : Gui :=
  { modes := ["cmd", "file", "edit"], currentMode := some "file",
    views := ["main", "cmdline", "error"], currentView := some "main", keybindings := [] }

/-- The main view holding the lines "abcd", "efgh" and "ijkl", at the top of its
buffer, five rows visible, the cursor on column 3 of row 2. -/
def sampleMain : View :=
  { name := "main",
    lines := [[0x61, 0x62, 0x63, 0x64], [0x65, 0x66, 0x67, 0x68], [0x69, 0x6a, 0x6b, 0x6c]],
    cx := 3, cy := 2, ox := 0, oy := 0, sizeX := 80, sizeY := 5 }

/-- The command-entry view holding the line "q", the cursor behind it. -/
def sampleCmdline : View :=
  { name := "cmdline", lines := [[0x71]], cx := 1, cy := 0, ox := 0, oy := 0,
    sizeX := 80, sizeY := 1 }

/-- The main view holding the lines "un deux", "xdeux deux" and "trois", the cursor on
column 3 of row 0, which is the `d` of the first line. -/
def sampleText : View :=
  { name := "main",
    lines := [[0x75, 0x6e, 0x20, 0x64, 0x65, 0x75, 0x78],
      [0x78, 0x64, 0x65, 0x75, 0x78, 0x20, 0x64, 0x65, 0x75, 0x78],
      [0x74, 0x72, 0x6f, 0x69, 0x73]],
    cx := 3, cy := 0, ox := 0, oy := 0, sizeX := 80, sizeY := 20 }

/-- A file of nine bytes that opens and on which every operation succeeds. -/
def sampleFile : FileSys :=
  { openErr := none, content := [1, 2, 3, 4, 5, 6, 7, 8, 9], offset := 0, writeErrs := [],
    truncErr := none, ops := [] }

/-- The stream "ab" with a final newline, delivered by `Read` as three bytes and then
as no byte with `io.EOF`. -/
def sampleReads : List ReadResult := [([0x61, 0x62, 0x0a], none), ([], some Error.EOF)]

/-- A session with the command-entry view focused, nothing reported or executed yet. -/
def sampleSession : Session :=
  { focus := "cmdline", errorView := [], title := "", executed := [] }

/-! # Theorems -/

/-! ## Start-up state -/

/-- The gui after `initModes` and `initKeybindings` on a gui without modes and bindings. -/
theorem init_fresh (views : List String) (cv : Option String) :
    initKeybindings (initModes ⟨[], none, views, cv, []⟩) =
      (⟨["cmd", "file", "edit"], some "file", views, cv,
        [⟨"file", "", .KeyCtrlC, .ModNone, .quit⟩,
         ⟨"file", "", .KeyCtrlC, .ModNone, .quit⟩,
         ⟨"file", "", .KeyCtrlT, .ModNone, .currTopViewHandler "cmdline"⟩,
         ⟨"file", "cmdline", .KeyCtrlT, .ModNone, .currTopViewHandler "main"⟩,
         ⟨"file", "", .KeyHome, .ModNone, .cursorHome⟩,
         ⟨"file", "", .KeyEnd, .ModNone, .cursorEnd⟩,
         ⟨"file", "", .KeyPgup, .ModNone, .goPgUp⟩,
         ⟨"file", "", .KeyPgdn, .ModNone, .goPgDown⟩,
         ⟨"file", "main", .KeyCtrlS, .ModNone, .saveMain⟩,
         ⟨"file", "main", .KeyTab, .ModNone, .switchModeTo "edit"⟩,
         ⟨"file", "main", .KeyCtrlF, .ModNone, .search⟩,
         ⟨"edit", "main", .KeyTab, .ModNone, .switchModeTo "file"⟩,
         ⟨"edit", "", .KeyCtrlC, .ModNone, .quit⟩]⟩, none) := by
  simp [initKeybindings, initModes, orReturn, Gui.SetMode, Gui.SetKeybinding, Gui.SetCurrentMode,
    fileMode, editMode, cmdMode]

/-! ## C1: `switchModeTo` -/

/-- C1: the handler returned by `switchModeTo name`, on any gui and any view: for an
undeclared name it returns an error and leaves the gui (so the current mode) and the
view (so its buffer and cursor) as they were; for a declared name the current mode
afterwards is `name`, a view named "cmdline" ends with an empty buffer and its cursor
at (0, 0), and a view with another name is unchanged. -/
theorem switchModeTo_contract (name : String) (g : Gui) (v : View) :
    (name ∉ g.modes → ∃ err, switchModeTo name g v = (g, v, some err)) ∧
    (name ∈ g.modes →
      (switchModeTo name g v).1.currentMode = some name ∧
      (v.name = "cmdline" →
        (switchModeTo name g v).2.1 = { v with lines := [], cx := 0, cy := 0 } ∧
        (switchModeTo name g v).2.1.lines = [] ∧
        (switchModeTo name g v).2.1.Cursor = (0, 0)) ∧
      (v.name ≠ "cmdline" → (switchModeTo name g v).2.1 = v)) := by
  refine ⟨fun h => ⟨Error.ErrUnknownMode, ?_⟩, fun h => ?_⟩
  · simp [switchModeTo, Gui.SetCurrentMode, h]
  · by_cases hc : name = "cmd"
    · subst hc
      by_cases hv : v.name = "cmdline" <;> by_cases hw : "cmd" ∈ g.views <;>
        simp [switchModeTo, Gui.SetCurrentMode, Gui.SetCurrentView, View.Name, View.SetCursor,
          View.Clear, View.Cursor, h, hv, hw]
    · by_cases hv : v.name = "cmdline" <;>
        simp [switchModeTo, Gui.SetCurrentMode, View.Name, View.SetCursor,
          View.Clear, View.Cursor, h, hv, hc]

/-- C1 at concrete inputs, on the command-entry view: the undeclared mode "visual" is
refused and nothing changes; the declared mode "edit" empties the view. -/
theorem switchModeTo_contract_witness :
    (∃ err, switchModeTo "visual" sampleGui sampleCmdline =
      (sampleGui, sampleCmdline, some err)) ∧
    (switchModeTo "edit" sampleGui sampleCmdline).1.currentMode = some "edit" ∧
    (switchModeTo "edit" sampleGui sampleCmdline).2.1.lines = [] ∧
    (switchModeTo "edit" sampleGui sampleCmdline).2.1.Cursor = (0, 0) :=
  ⟨(switchModeTo_contract "visual" sampleGui sampleCmdline).1 (by decide),
   ((switchModeTo_contract "edit" sampleGui sampleCmdline).2 (by decide)).1,
   (((switchModeTo_contract "edit" sampleGui sampleCmdline).2 (by decide)).2.1 rfl).2.1,
   (((switchModeTo_contract "edit" sampleGui sampleCmdline).2 (by decide)).2.1 rfl).2.2⟩

/-! ## C2: `currTopViewHandler` -/

/-- C2: the handler returned by `currTopViewHandler name`: when a view of that name
exists it returns nil, the view has the focus and is the last (topmost) of the render
order, the other views keeping their order; when none exists it returns an error and
the focus and the render order are as before.  The current mode and the view passed in
are unchanged either way. -/
theorem currTopViewHandler_contract (name : String) (g : Gui) (v : View) :
    (name ∈ g.views →
      (currTopViewHandler name g v).2.2 = none ∧
      (currTopViewHandler name g v).1.currentView = some name ∧
      (currTopViewHandler name g v).1.views.getLast? = some name ∧
      (currTopViewHandler name g v).1.views = g.views.erase name ++ [name]) ∧
    (name ∉ g.views →
      (currTopViewHandler name g v).2.2 ≠ none ∧
      (currTopViewHandler name g v).1.currentView = g.currentView ∧
      (currTopViewHandler name g v).1.views = g.views) ∧
    (currTopViewHandler name g v).1.currentMode = g.currentMode ∧
    (currTopViewHandler name g v).2.1 = v := by
  by_cases h : name ∈ g.views <;>
    simp [currTopViewHandler, Gui.SetCurrentView, Gui.SetViewOnTop, h]

/-- C2 at concrete inputs: focusing "cmdline" among the three views puts it last in
the render order; the unknown view "help" is an error. -/
theorem currTopViewHandler_contract_witness :
    (currTopViewHandler "cmdline" sampleGui sampleMain).1.currentView = some "cmdline" ∧
    (currTopViewHandler "cmdline" sampleGui sampleMain).1.views
      = ["main", "error"] ++ ["cmdline"] ∧
    (currTopViewHandler "help" sampleGui sampleMain).2.2 ≠ none ∧
    (currTopViewHandler "help" sampleGui sampleMain).1.views = sampleGui.views :=
  ⟨((currTopViewHandler_contract "cmdline" sampleGui sampleMain).1 (by decide)).2.1,
   ((currTopViewHandler_contract "cmdline" sampleGui sampleMain).1 (by decide)).2.2.2,
   ((currTopViewHandler_contract "help" sampleGui sampleMain).2.1 (by decide)).1,
   ((currTopViewHandler_contract "help" sampleGui sampleMain).2.1 (by decide)).2.2⟩

/-! ## C3: switching to `cmd` -/

/-- C3, what the code does: with the mode `cmd` declared and no view other than "main",
"cmdline" and "error", the handler returned by `switchModeTo "cmd"`, on any view, sets
the current mode to `cmd` and then returns `ErrUnknownView`, the focus staying where it
was: it asks the toolkit to focus a view named "cmd", the mode name, and there is none. -/
theorem switchModeTo_cmd_returns_error (g : Gui) (v : View)
    (hm : cmdMode ∈ g.modes)
    (hv : ∀ n ∈ g.views, n = "main" ∨ n = "cmdline" ∨ n = "error") :
    (switchModeTo cmdMode g v).2.2 = some Error.ErrUnknownView ∧
    (switchModeTo cmdMode g v).1.currentMode = some cmdMode ∧
    (switchModeTo cmdMode g v).1.currentView = g.currentView := by
  have hm2 : "cmd" ∈ g.modes := hm
  have hv2 : "cmd" ∉ g.views := by
    intro h
    rcases hv _ h with h1 | h1 | h1 <;> exact absurd h1 (by decide)
  simp [switchModeTo, Gui.SetCurrentMode, Gui.SetCurrentView, cmdMode, hm2, hv2]

/-- C3 at the start-up gui with "main" focused, on the main view: the error is
returned and the focus stays on "main". -/
theorem switchModeTo_cmd_returns_error_witness :
    (switchModeTo cmdMode sampleGui sampleMain).2.2 = some Error.ErrUnknownView ∧
    (switchModeTo cmdMode sampleGui sampleMain).1.currentMode = some cmdMode ∧
    (switchModeTo cmdMode sampleGui sampleMain).1.currentView = some "main" :=
  switchModeTo_cmd_returns_error sampleGui sampleMain (by decide) (by decide)

/-! ## C4: the Tab toggle -/

/-- C4: on a gui without modes and bindings, `initModes` and `initKeybindings` succeed
and leave `file` as the current mode.  With the view "main" focused the only handler
bound to Tab in `file` mode is `switchModeTo "edit"` and the only one in `edit` mode is
`switchModeTo "file"`; on the main view the first returns nil and sets the mode to
`edit`, the second returns nil and sets it back to `file`, and after both the gui (mode
and focus included) and the view (buffer and cursor included) are what they were. -/
theorem tab_toggles_file_edit (views : List String) (v : View) (hv : v.name = "main") :
    (initKeybindings (initModes ⟨[], none, views, some "main", []⟩)).2 = none ∧
    (initKeybindings (initModes ⟨[], none, views, some "main", []⟩)).1.currentMode
      = some fileMode ∧
    (initKeybindings (initModes ⟨[], none, views, some "main", []⟩)).1.boundHandlers
      fileMode (some "main") .KeyTab .ModNone = [.switchModeTo editMode] ∧
    (initKeybindings (initModes ⟨[], none, views, some "main", []⟩)).1.boundHandlers
      editMode (some "main") .KeyTab .ModNone = [.switchModeTo fileMode] ∧
    switchModeTo editMode (initKeybindings (initModes ⟨[], none, views, some "main", []⟩)).1 v
      = ({ (initKeybindings (initModes ⟨[], none, views, some "main", []⟩)).1 with
            currentMode := some editMode }, v, none) ∧
    switchModeTo fileMode (switchModeTo editMode
        (initKeybindings (initModes ⟨[], none, views, some "main", []⟩)).1 v).1 v
      = ((initKeybindings (initModes ⟨[], none, views, some "main", []⟩)).1, v, none) := by
  rw [init_fresh]
  simp [Gui.boundHandlers, switchModeTo, Gui.SetCurrentMode, View.Name, fileMode, editMode, hv]

/-- C4 at a concrete start-up: views "main", "cmdline" and "error", the main view
holding three lines with the cursor on the last one. -/
theorem tab_toggles_file_edit_witness :
    switchModeTo fileMode (switchModeTo editMode
        (initKeybindings (initModes ⟨[], none, ["main", "cmdline", "error"], some "main",
          []⟩)).1 sampleMain).1 sampleMain
      = ((initKeybindings (initModes ⟨[], none, ["main", "cmdline", "error"], some "main",
          []⟩)).1, sampleMain, none) :=
  (tab_toggles_file_edit ["main", "cmdline", "error"] sampleMain rfl).2.2.2.2.2

/-! ## C5: the quit binding -/

/-- C5: after `initModes` and `initKeybindings`, the table binds Ctrl+C on the wildcard
view to `quit` in `file` mode and in `edit` mode, every Ctrl+C entry of the table is
such a binding, so whatever view has the focus the handlers eligible for Ctrl+C are
all `quit` in both modes; and `quit` returns `ErrQuit` on every gui and every view
(nil included) and leaves both as they were. -/
theorem quit_bound_in_file_and_edit (views : List String) (cv focus : Option String) :
    (⟨fileMode, "", .KeyCtrlC, .ModNone, .quit⟩ : Keybinding) ∈
      (initKeybindings (initModes ⟨[], none, views, cv, []⟩)).1.keybindings ∧
    (⟨editMode, "", .KeyCtrlC, .ModNone, .quit⟩ : Keybinding) ∈
      (initKeybindings (initModes ⟨[], none, views, cv, []⟩)).1.keybindings ∧
    (∀ kb ∈ (initKeybindings (initModes ⟨[], none, views, cv, []⟩)).1.keybindings,
      kb.key = .KeyCtrlC →
        (kb.mode = fileMode ∨ kb.mode = editMode) ∧ kb.viewName = "" ∧ kb.mod = .ModNone ∧
          kb.h = .quit) ∧
    (initKeybindings (initModes ⟨[], none, views, cv, []⟩)).1.boundHandlers
      fileMode focus .KeyCtrlC .ModNone = [.quit, .quit] ∧
    (initKeybindings (initModes ⟨[], none, views, cv, []⟩)).1.boundHandlers
      editMode focus .KeyCtrlC .ModNone = [.quit] ∧
    (∀ (g : Gui) (w : Option View), quit g w = (g, w, some Error.ErrQuit)) := by
  rw [init_fresh]
  refine ⟨by simp [fileMode], by simp [editMode], ?_, ?_, ?_, fun g w => rfl⟩
  · intro kb hkb hkey
    simp only [List.mem_cons, List.mem_singleton, List.not_mem_nil, or_false] at hkb
    rcases hkb with h | h | h | h | h | h | h | h | h | h | h | h | h <;> subst h <;>
      simp_all [fileMode, editMode]
  · simp [Gui.boundHandlers, fileMode]
  · simp [Gui.boundHandlers, editMode]

/-! ## C6: argument counts in `validateCmd` -/

/-- C6: with the command-entry view focused, a line whose first token is `o`, `sa`,
`repall` or `setwrap`: with fewer arguments than the command requires `validateCmd`
writes the command's missing-argument error to the error view, with more it writes
`ErrUnexpectedArgument`; in both cases it returns nil and nothing else of the session
changes, so no operation is executed. -/
theorem validateCmd_argument_count (s : Session) (line name : String) (args : List String)
    (hfocus : s.focus = "cmdline") (hline : fields line = name :: args)
    (hname : name ∈ ["o", "sa", "repall", "setwrap"]) :
    (args.length < requiredArgs name →
      validateCmd s line =
        some ({ s with errorView := s.errorView ++ [missingArgError name] }, none)) ∧
    (requiredArgs name < args.length →
      validateCmd s line =
        some ({ s with errorView := s.errorView ++ [.ErrUnexpectedArgument] }, none)) ∧
    ((args.length < requiredArgs name ∨ requiredArgs name < args.length) →
      ∃ s2, validateCmd s line = some (s2, none) ∧ s2.executed = s.executed) := by
  have key : (args.length < requiredArgs name →
      validateCmd s line =
        some ({ s with errorView := s.errorView ++ [missingArgError name] }, none)) ∧
    (requiredArgs name < args.length →
      validateCmd s line =
        some ({ s with errorView := s.errorView ++ [.ErrUnexpectedArgument] }, none)) := by
    simp only [List.mem_cons, List.mem_singleton, List.not_mem_nil, or_false] at hname
    rcases hname with h | h | h | h <;> subst h <;> constructor <;> intro hlt <;>
      simp [requiredArgs] at hlt <;>
      simp [validateCmd, hfocus, hline, commands, List.find?, Session.report, missingArgError,
        hlt]
    all_goals first | omega | (intro h; subst h; simp at hlt)
  refine ⟨key.1, key.2, ?_⟩
  rintro (h | h)
  · exact ⟨_, key.1 h, rfl⟩
  · exact ⟨_, key.2 h, rfl⟩

/-- C6 at concrete lines: `repall` without arguments and `setwrap useless args`. -/
theorem validateCmd_argument_count_witness :
    validateCmd sampleSession "repall" =
      some ({ sampleSession with errorView := [.ErrMissingPattern] }, none) ∧
    validateCmd sampleSession "setwrap useless args" =
      some ({ sampleSession with errorView := [.ErrUnexpectedArgument] }, none) :=
  ⟨(validateCmd_argument_count sampleSession "repall" "repall" [] rfl (by decide)
      (by decide)).1 (by decide),
   (validateCmd_argument_count sampleSession "setwrap useless args" "setwrap"
      ["useless", "args"] rfl (by decide) (by decide)).2.1 (by decide)⟩

/-! ## C8: `goPgUp` -/

/-- C8 as stated fails: at the top of the buffer (origin (0, 0)) with five visible rows
and the cursor at column 3 of row 2, `goPgUp` returns nil, keeps the origin and leaves
the cursor at column 3 (on row 0), not at column 0; with no visible row it does not
move the cursor at all. -/
theorem goPgUp_at_top_keeps_column :
    (goPgUp sampleGui (some sampleMain)).2.2 = none ∧
    (goPgUp sampleGui (some sampleMain)).2.1.map View.Origin = some (0, 0) ∧
    (goPgUp sampleGui (some sampleMain)).2.1.map View.Cursor = some (3, 0) ∧
    (goPgUp sampleGui (some sampleMain)).2.1.map View.cx ≠ some 0 ∧
    (goPgUp sampleGui (some { sampleMain with sizeY := 0 })).2.1.map View.Cursor
      = some (3, 2) := by
  decide

/-- C8 amended: for a non-nil view with origin `(ox, oy)` and visible height `h ≥ 0`
(whatever `oy`, so for `oy ≥ 0` too), `goPgUp` returns nil, leaves the gui and the
buffer as they were and the origin at `(ox, max 0 (oy - h))`, whose row is not
negative; when `oy = 0` the origin is unchanged and the cursor keeps its column, its
row becoming 0 when `h > 0` and staying where it was when `h = 0`. -/
theorem goPgUp_origin_clamped (g : Gui) (v : View) (hh : 0 ≤ v.sizeY) :
    ∃ w, goPgUp g (some v) = (g, some w, none) ∧
      w.Origin = (v.ox, max 0 (v.oy - v.sizeY)) ∧ 0 ≤ w.oy ∧
      w.lines = v.lines ∧ w.name = v.name ∧ w.Size = v.Size ∧
      (v.oy = 0 → w.Origin = v.Origin ∧ w.cx = v.cx ∧
        (0 < v.sizeY → w.cy = 0) ∧ (v.sizeY = 0 → w.cy = v.cy)) := by
  by_cases h1 : v.oy - v.sizeY < 0
  · by_cases h2 : v.oy = 0
    · refine ⟨{ v with oy := 0, cy := v.cy + -v.cy }, ?_, ?_⟩
      · have h4 : 0 < v.sizeY := by omega
        simp [goPgUp, View.Origin, View.Size, View.SetOrigin, View.Cursor, View.MoveCursor,
          h2, h4]
      · have h3 : max 0 (v.oy - v.sizeY) = 0 := max_eq_left (le_of_lt h1)
        simp [View.Origin, View.Size, h3, h2]
        omega
    · refine ⟨{ v with oy := 0 }, ?_, ?_⟩
      · simp [goPgUp, View.Origin, View.Size, View.SetOrigin, View.Cursor, View.MoveCursor,
          h1, h2]
      · have h3 : max 0 (v.oy - v.sizeY) = 0 := max_eq_left (le_of_lt h1)
        simp [View.Origin, View.Size, h3, h2]
  · refine ⟨{ v with oy := v.oy - v.sizeY, cy := v.cy + -(v.oy - v.sizeY) }, ?_, ?_⟩
    · simp [goPgUp, View.Origin, View.Size, View.SetOrigin, View.Cursor, View.MoveCursor, h1]
    · have h3 : max 0 (v.oy - v.sizeY) = v.oy - v.sizeY := max_eq_right (not_lt.mp h1)
      simp [View.Origin, View.Size, h3]
      refine ⟨not_lt.mp h1 |> fun h => by omega, fun h0 => ?_⟩
      have : v.sizeY = 0 := by omega
      simp [h0, this]

/-- C8 amended, at the main view scrolled down to row 3 with five visible rows: the
origin row ends at `max 0 (3 - 5)`. -/
theorem goPgUp_origin_clamped_witness :
    ∃ w, goPgUp sampleGui (some { sampleMain with oy := 3 }) = (sampleGui, some w, none) ∧
      w.Origin = (0, max 0 (3 - 5)) ∧ 0 ≤ w.oy ∧
      w.lines = sampleMain.lines ∧ w.name = "main" ∧ w.Size = (80, 5) ∧
      ((3 : Int) = 0 → w.Origin = (0, 3) ∧ w.cx = 3 ∧
        ((0 : Int) < 5 → w.cy = 0) ∧ ((5 : Int) = 0 → w.cy = 2)) :=
  goPgUp_origin_clamped sampleGui { sampleMain with oy := 3 } (by decide)

/-! ## C9, C10: `saveMain` -/

/-- With no current file `saveMain` returns nil and touches nothing. -/
theorem saveMain_unnamed (fs : FileSys) (reads : List ReadResult) :
    saveMain "" fs reads = some (fs, none) := by
  simp [saveMain]

/-- A failing `os.OpenFile` is returned by `saveMain`, no byte being read or written. -/
theorem saveMain_open_error (currentFile : String) (fs : FileSys) (reads : List ReadResult)
    (err : Error) (hname : currentFile ≠ "") (hopen : fs.openErr = some err) :
    saveMain currentFile fs reads =
      some ({ fs with ops := fs.ops ++ [.openFile currentFile] }, some err) := by
  simp [saveMain, FileSys.OpenFile, hname, hopen]

/-- C9, what the code does: on the named file "notes.txt", opened without error, with
the stream "ab" and a newline delivered as three bytes and then end of stream,
`saveMain` returns nil (a) when the `Write` fails and (b) when `Truncate` fails; and
(c) it returns nil when `Read` delivers one byte together with an error other than end
of stream. -/
theorem saveMain_swallows_errors :
    (saveMain "notes.txt" { sampleFile with writeErrs := [some (.other 28)] }
        sampleReads).map Prod.snd = some none ∧
    (saveMain "notes.txt" { sampleFile with truncErr := some (.other 27) }
        sampleReads).map Prod.snd = some none ∧
    (saveMain "notes.txt" sampleFile [([0x61], some (.other 5))]).map Prod.snd
      = some none := by
  decide

/-- A `Write` whose outcome is not scripted to fail puts the bytes at the write offset
and advances it. -/
theorem write_succeeds (f : FileSys) (p : List UInt8) (hw : ∀ e ∈ f.writeErrs, e = none) :
    f.Write p =
      ({ f with
          content := f.content.take f.offset ++ List.replicate (f.offset - f.content.length) 0
            ++ p ++ f.content.drop (f.offset + p.length),
          offset := f.offset + p.length,
          writeErrs := f.writeErrs.tail,
          ops := f.ops ++ [.write p] }, none) := by
  have hhead : f.writeErrs.headD none = none := by
    cases hl : f.writeErrs with
    | nil => rfl
    | cons e es => exact hw e (by simp [hl])
  simp only [FileSys.Write, hhead]

/-- The loop of `saveMain` on a stream delivered in non-empty chunks and closed by a
read of no byte with `io.EOF`, every write succeeding: the chunks land one after the
other from the write offset on, over the bytes that were there, and the file is then
truncated to the bytes counted. -/
theorem saveLoop_chunks (chunks : List (List UInt8)) :
    ∀ (f : FileSys) (size : Int) (pre rest : List UInt8),
      (∀ e ∈ f.writeErrs, e = none) → (∀ c ∈ chunks, 1 ≤ c.length) →
      f.content = pre ++ rest → f.offset = pre.length →
      ∃ f2 : FileSys, saveLoop (chunks.map (fun c => (c, none)) ++ [([], some Error.EOF)]) f size =
          some ((f2.Truncate (size + (chunks.flatten.length : Int))).1, none) ∧
        f2.content = pre ++ chunks.flatten ++ rest.drop chunks.flatten.length ∧
        f2.truncErr = f.truncErr := by
  induction chunks with
  | nil =>
    intro f size pre rest _ _ hc _
    exact ⟨f, by simp [saveLoop, binarySizeByte], by simp [hc], rfl⟩
  | cons c cs ih =>
    intro f size pre rest hw hcs hc ho
    have hc1 : 1 ≤ c.length := hcs c (List.mem_cons_self _ _)
    have htail : ∀ e ∈ f.writeErrs.tail, e = none :=
      fun e he => hw e (List.mem_of_mem_tail he)
    have hwr := write_succeeds f c hw
    obtain ⟨f2, h2, h3, h4⟩ := ih (f.Write c).1 (size + (c.length : Int)) (pre ++ c)
      (rest.drop c.length) (by rw [hwr]; exact htail)
      (fun d hd => hcs d (List.mem_cons_of_mem _ hd))
      (by rw [hwr]; simp [hc, ho, List.take_append_eq_append_take,
            List.drop_append_eq_append_drop])
      (by rw [hwr]; simp [ho])
    refine ⟨f2, ?_, ?_, ?_⟩
    · have hpos : 0 < c.length := hc1
      simp only [List.map_cons, List.cons_append, saveLoop, hpos, gt_iff_lt, if_true]
      simp only [ne_eq, not_true_eq_false, and_false, if_false]
      have h5 : ¬ ((none : Option Error) = some Error.EOF) := by simp
      rw [if_neg h5]
      show saveLoop (List.map (fun c => (c, none)) cs ++ [([], some Error.EOF)]) (f.Write c).1
        (size + (c.length : Int)) = _
      rw [h2]
      simp [Int.add_assoc]
    · rw [h3]
      simp [List.drop_drop, Nat.add_comm]
    · rw [h4, hwr]

/-- C10: with a current file that opens, every write and the truncation succeeding,
and a stream of `N ≥ 1` bytes delivered in chunks of 1 to 5 bytes and closed by a read
of no byte with `io.EOF`, `saveMain` returns nil and the file then holds exactly the
first `N - 1` bytes of the stream, whatever it held before. -/
theorem saveMain_writes_all_but_last_byte (currentFile : String) (fs : FileSys)
    (chunks : List (List UInt8))
    (hname : currentFile ≠ "") (hopen : fs.openErr = none)
    (hwrite : ∀ e ∈ fs.writeErrs, e = none) (htrunc : fs.truncErr = none)
    (hchunks : ∀ c ∈ chunks, 1 ≤ c.length ∧ c.length ≤ 5) (hN : 1 ≤ chunks.flatten.length) :
    ∃ fs2, saveMain currentFile fs (chunks.map (fun c => (c, none)) ++ [([], some Error.EOF)])
        = some (fs2, none) ∧
      fs2.content = chunks.flatten.take (chunks.flatten.length - 1) := by
  obtain ⟨f2, h2, h3, h4⟩ := saveLoop_chunks chunks (fs.OpenFile currentFile).1 (-1) []
    fs.content (by simpa [FileSys.OpenFile, hopen] using hwrite) (fun c hc => (hchunks c hc).1)
    (by simp [FileSys.OpenFile, hopen]) (by simp [FileSys.OpenFile, hopen])
  have htr : f2.truncErr = none := by rw [h4]; simp [FileSys.OpenFile, hopen, htrunc]
  have hsz : ¬ ((-1 : Int) + (chunks.flatten.length : Int) < 0) := by omega
  have hnat : ((-1 : Int) + (chunks.flatten.length : Int)).toNat = chunks.flatten.length - 1 := by
    omega
  refine ⟨((f2.Truncate (-1 + (chunks.flatten.length : Int))).1).Close, ?_, ?_⟩
  · simp only [saveMain]
    have : (currentFile == "") = false := by simpa using hname
    simp only [this, Bool.false_eq_true, if_false]
    have ho : fs.OpenFile currentFile = ((fs.OpenFile currentFile).1, none) := by
      simp [FileSys.OpenFile, hopen]
    rw [ho]
    simp only [h2]
  · simp only [FileSys.Close, FileSys.Truncate, hsz, if_false, htr, hnat, h3]
    simp [List.take_append_eq_append_take]
    omega

/-- C10 on a file of nine bytes and the stream "abcdef" with a final newline, delivered
as five bytes and then two: the file ends as "abcdef". -/
theorem saveMain_writes_all_but_last_byte_witness :
    ∃ fs2, saveMain "notes.txt" sampleFile
        ([[0x61, 0x62, 0x63, 0x64, 0x65], [0x66, 0x0a]].map (fun c => (c, none))
          ++ [([], some Error.EOF)]) = some (fs2, none) ∧
      fs2.content = [[0x61, 0x62, 0x63, 0x64, 0x65], [0x66, 0x0a]].flatten.take
        ([[0x61, 0x62, 0x63, 0x64, 0x65], [(0x66 : UInt8), 0x0a]].flatten.length - 1) :=
  saveMain_writes_all_but_last_byte "notes.txt" sampleFile
    [[0x61, 0x62, 0x63, 0x64, 0x65], [0x66, 0x0a]] (by decide) rfl (by decide) rfl (by decide)
    (by decide)

/-! ## C7: `search` -/

/-- A string that starts with another is at least as long. -/
theorem isPrefixOf_length_le : ∀ (a b : GoString), a.isPrefixOf b = true → a.length ≤ b.length
  | [], _, _ => by simp
  | _ :: _, [], h => by simp [List.isPrefixOf] at h
  | x :: a, y :: b, h => by
    simp only [List.isPrefixOf, Bool.and_eq_true] at h
    have := isPrefixOf_length_le a b h.2
    simp only [List.length_cons]
    omega

/-- What the scan of `strings.Index` returns: `-1` when no suffix of `s` starts with
`sub`, otherwise the offset of the first suffix that does. -/
theorem indexFrom_spec (sub : GoString) : ∀ (s : GoString) (k : Nat),
    (indexFrom sub s k = -1 ∧ ∀ c, sub.isPrefixOf (s.drop c) = false) ∨
    (∃ j : Nat, indexFrom sub s k = ((k + j : Nat) : Int) ∧ sub.isPrefixOf (s.drop j) = true ∧
      ∀ c, c < j → sub.isPrefixOf (s.drop c) = false) := by
  intro s
  induction s with
  | nil =>
    intro k
    by_cases h : sub.isPrefixOf [] = true
    · exact Or.inr ⟨0, by simp only [indexFrom, h, if_true, Nat.add_zero], h,
        fun c hc => absurd hc (Nat.not_lt_zero c)⟩
    · have hf : sub.isPrefixOf [] = false := (Bool.not_eq_true _).mp h
      refine Or.inl ⟨by simp only [indexFrom, hf, Bool.false_eq_true, if_false], fun c => ?_⟩
      rw [List.drop_nil]
      exact hf
  | cons a s ih =>
    intro k
    by_cases h : sub.isPrefixOf (a :: s) = true
    · exact Or.inr ⟨0, by simp only [indexFrom, h, if_true, Nat.add_zero], h,
        fun c hc => absurd hc (Nat.not_lt_zero c)⟩
    · have hf : sub.isPrefixOf (a :: s) = false := (Bool.not_eq_true _).mp h
      rcases ih (k + 1) with ⟨h1, h2⟩ | ⟨j, h1, h2, h3⟩
      · refine Or.inl ⟨by simp only [indexFrom, hf, Bool.false_eq_true, if_false, h1],
          fun c => ?_⟩
        cases c with
        | zero => exact hf
        | succ c => exact h2 c
      · refine Or.inr ⟨j + 1, ?_, h2, fun c hc => ?_⟩
        · simp only [indexFrom, hf, Bool.false_eq_true, if_false, h1]
          congr 1
          omega
        · cases c with
          | zero => exact hf
          | succ c => exact h3 c (by omega)

/-- A row of the buffer is read without error. -/
theorem line_inside (v : View) (r : Int) (h0 : 0 ≤ r) (h1 : r < v.lines.length) :
    v.Line r = (v.lines.getD r.toNat [], none) := by
  simp [View.Line, h0, h1]

/-- A row the buffer does not have is an error. -/
theorem line_outside (v : View) (r : Int) (h : ¬ (0 ≤ r ∧ r < v.lines.length)) :
    v.Line r = ([], some Error.invalidPoint) := by
  simp only [View.Line, h, if_false]

/-- An occurrence of the pattern at column `c` ends inside the line. -/
theorem occursAt_length (s : GoString) (c : Nat) (h : OccursAt s c) : c + 4 ≤ s.length := by
  have := isPrefixOf_length_le _ _ h
  simp only [pattern, List.length_cons, List.length_nil, List.length_drop] at this
  omega

/-- The loop of `search` past the cursor row (`x = 0`, `sameline = 0`), from row
`cy + k` on, with fuel for the rows left and one more: it returns nil; the cursor ends
on the first row from `cy + k` on that holds the pattern, at its leftmost occurrence,
and the view is unchanged when no such row exists. -/
theorem searchLoop_rest (v : View) (hy : 0 ≤ v.cy) : ∀ (fuel k : Nat), 1 ≤ fuel →
    (v.lines.length : Int) + 1 ≤ v.cy + k + fuel →
    ∃ w, searchLoop v v.cy fuel k 0 0 = .ok (w, none) ∧
      ((∃ (r : Int) (c : Nat), v.cy + k ≤ r ∧ LineHas v r c ∧
          (∀ r2 c2, v.cy + k ≤ r2 → LineHas v r2 c2 → r < r2 ∨ (r = r2 ∧ c ≤ c2)) ∧
          w = { v with cx := c, cy := r }) ∨
       ((∀ r c, v.cy + k ≤ r → ¬ LineHas v r c) ∧ w = v)) := by
  intro fuel
  induction fuel with
  | zero => intro k h; omega
  | succ fuel ih =>
    intro k _ hf
    by_cases hin : v.cy + (k : Int) < v.lines.length
    · have hl := line_inside v (v.cy + k) (by omega) hin
      have hnext : (∀ c, ¬ LineHas v (v.cy + k) c) →
          ∃ w, searchLoop v v.cy fuel ((k : Int) + 1) 0 0 = .ok (w, none) ∧
            ((∃ (r : Int) (c : Nat), v.cy + k ≤ r ∧ LineHas v r c ∧
                (∀ r2 c2, v.cy + k ≤ r2 → LineHas v r2 c2 → r < r2 ∨ (r = r2 ∧ c ≤ c2)) ∧
                w = { v with cx := c, cy := r }) ∨
             ((∀ r c, v.cy + k ≤ r → ¬ LineHas v r c) ∧ w = v)) := by
        intro hno
        obtain ⟨w, hw, hres⟩ := ih (k + 1) (by omega) (by push_cast; omega)
        refine ⟨w, by simpa using hw, ?_⟩
        rcases hres with ⟨r, c, hr, hh, hmin, hw⟩ | ⟨hnone, hw⟩
        · refine Or.inl ⟨r, c, by push_cast at hr; omega, hh, ?_, hw⟩
          intro r2 c2 hr2 hh2
          by_cases heq : r2 = v.cy + k
          · subst heq; exact absurd hh2 (hno c2)
          · exact hmin r2 c2 (by push_cast; omega) hh2
        · refine Or.inr ⟨?_, hw⟩
          intro r c hr
          by_cases heq : r = v.cy + k
          · subst heq; exact hno c
          · exact hnone r c (by push_cast; omega)
      rw [searchLoop]
      simp only [hl]
      have hhas : ∀ c, LineHas v (v.cy + k) c ↔ OccursAt (v.lines.getD (v.cy + k).toNat []) c := by
        intro c
        simp only [LineHas, hl, true_and]
      generalize v.lines.getD (v.cy + k).toNat [] = s at hhas ⊢
      simp only [beq_self_eq_true, if_true]
      by_cases hg : (0 : Int) < (s.length : Int) - 1
      · rw [if_pos hg]
        have hsl : sliceFrom s (0 + 0) = .ok s := by simp [sliceFrom]
        rw [hsl]
        simp only []
        rcases indexFrom_spec pattern s 0 with ⟨h1, h2⟩ | ⟨j, h1, h2, h3⟩
        · have hi : ¬ (stringsIndex s pattern ≥ 0) := by simp [stringsIndex, h1]
          rw [if_neg hi]
          apply hnext
          intro c hc
          have h4 := (hhas c).mp hc
          rw [OccursAt, h2 c] at h4
          exact Bool.false_ne_true h4
        · have hi : stringsIndex s pattern = (j : Int) := by simp [stringsIndex, h1]
          rw [hi]
          have hj : (j : Int) ≥ 0 := by omega
          rw [if_pos hj]
          refine ⟨{ v with cx := j, cy := v.cy + k }, ?_,
            Or.inl ⟨v.cy + k, j, le_refl _, (hhas j).mpr h2, ?_, rfl⟩⟩
          · simp [View.MoveCursor, View.Cursor]
          · intro r2 c2 hr2 hh2
            by_cases heq : r2 = v.cy + k
            · refine Or.inr ⟨heq.symm, ?_⟩
              subst heq
              by_contra hlt
              have h5 := h3 c2 (by omega)
              have h4 := (hhas c2).mp hh2
              rw [OccursAt, h5] at h4
              exact Bool.false_ne_true h4
            · exact Or.inl (by omega)
      · rw [if_neg hg]
        apply hnext
        intro c hc
        have := occursAt_length s c ((hhas c).mp hc)
        omega
    · have hl := line_outside v (v.cy + k) (by omega)
      rw [searchLoop]
      simp only [hl]
      refine ⟨v, by simp, Or.inr ⟨?_, rfl⟩⟩
      intro r c hr hh
      have ho := line_outside v r (by omega)
      simp [LineHas, ho] at hh

/-- The result of `search` from a cursor inside the non-negative quadrant, with fuel
for one iteration more than the buffer has rows: nil is returned, and the view either
has its cursor on the first match or is unchanged, no match existing. -/
theorem searchFuel_result (g : Gui) (v : View) (hx : 0 ≤ v.cx) (hy : 0 ≤ v.cy) (fuel : Nat)
    (hfuel : v.lines.length + 1 ≤ fuel) :
    ∃ w, searchFuel fuel g v = .ok (g, w, none) ∧
      ((∃ (r : Int) (c : Nat), IsFirstMatch v r c ∧ w = { v with cx := c, cy := r }) ∨
       ((∀ r c, ¬ IsMatch v r c) ∧ w = v)) := by
  obtain ⟨f, rfl⟩ : ∃ f, fuel = f + 1 := ⟨fuel - 1, by omega⟩
  suffices hloop : ∃ w, searchLoop v v.cy (f + 1) 0 v.cx 1 = .ok (w, none) ∧
      ((∃ (r : Int) (c : Nat), IsFirstMatch v r c ∧ w = { v with cx := c, cy := r }) ∨
       ((∀ r c, ¬ IsMatch v r c) ∧ w = v)) by
    obtain ⟨w, hw, hres⟩ := hloop
    exact ⟨w, by simp [searchFuel, View.Cursor, hw], hres⟩
  by_cases hin : v.cy < v.lines.length
  · have hl := line_inside v v.cy hy hin
    have hconv : (∀ c : Nat, v.cx < c → ¬ LineHas v v.cy c) →
        ∃ w, searchLoop v v.cy f (0 + 1) 0 0 = .ok (w, none) ∧
          ((∃ (r : Int) (c : Nat), IsFirstMatch v r c ∧ w = { v with cx := c, cy := r }) ∨
           ((∀ r c, ¬ IsMatch v r c) ∧ w = v)) := by
      intro hno
      obtain ⟨w, hw, hres⟩ := searchLoop_rest v hy f 1 (by omega)
        (by push_cast; omega)
      refine ⟨w, by simpa using hw, ?_⟩
      rcases hres with ⟨r, c, hr, hh, hmin, hw⟩ | ⟨hnone, hw⟩
      · refine Or.inl ⟨r, c, ⟨⟨by push_cast at hr; omega, hh, fun h => ?_⟩, ?_⟩, hw⟩
        · push_cast at hr
          omega
        · intro r2 c2 hm
          by_cases heq : r2 = v.cy
          · subst heq
            exact absurd hm.2.1 (hno c2 (hm.2.2 rfl))
          · exact hmin r2 c2 (by have := hm.1; push_cast; omega) hm.2.1
      · refine Or.inr ⟨fun r c hm => ?_, hw⟩
        by_cases heq : r = v.cy
        · subst heq
          exact hno c (hm.2.2 rfl) hm.2.1
        · exact hnone r c (by have := hm.1; push_cast; omega) hm.2.1
    rw [searchLoop]
    simp only [Int.add_zero, hl]
    have hhas : ∀ c, LineHas v v.cy c ↔ OccursAt (v.lines.getD v.cy.toNat []) c := by
      intro c
      simp only [LineHas, hl, true_and]
    generalize v.lines.getD v.cy.toNat [] = s at hhas ⊢
    simp only [beq_self_eq_true, if_true]
    by_cases hg : v.cx < (s.length : Int) - 1
    · rw [if_pos hg]
      have hsl : sliceFrom s (v.cx + 1) = .ok (s.drop (v.cx + 1).toNat) := by
        have : 0 ≤ v.cx + 1 ∧ v.cx + 1 ≤ (s.length : Int) := by omega
        simp only [sliceFrom, this, and_self, if_true]
      rw [hsl]
      simp only []
      have hdd : ∀ c2 : Nat, (v.cx + 1).toNat ≤ c2 →
          s.drop c2 = (s.drop (v.cx + 1).toNat).drop (c2 - (v.cx + 1).toNat) := by
        intro c2 h
        rw [List.drop_drop]
        congr 1
        omega
      rcases indexFrom_spec pattern (s.drop (v.cx + 1).toNat) 0 with ⟨h1, h2⟩ | ⟨j, h1, h2, h3⟩
      · have hi : ¬ (stringsIndex (s.drop (v.cx + 1).toNat) pattern ≥ 0) := by
          simp [stringsIndex, h1]
        rw [if_neg hi]
        apply hconv
        intro c hc hh
        have h4 := (hhas c).mp hh
        rw [OccursAt, hdd c (by omega), h2] at h4
        exact Bool.false_ne_true h4
      · have hi : stringsIndex (s.drop (v.cx + 1).toNat) pattern = (j : Int) := by
          simp [stringsIndex, h1]
        rw [hi]
        have hj : (j : Int) ≥ 0 := by omega
        rw [if_pos hj]
        have hocc : OccursAt s ((v.cx + 1).toNat + j) := by
          rw [OccursAt, hdd _ (by omega)]
          simpa using h2
        refine ⟨{ v with cx := (((v.cx + 1).toNat + j : Nat) : Int), cy := v.cy }, ?_,
          Or.inl ⟨v.cy, (v.cx + 1).toNat + j, ⟨⟨le_refl _, (hhas _).mpr hocc, fun _ => ?_⟩, ?_⟩,
            rfl⟩⟩
        · have hne : ((1 : Int) == 0) = false := by decide
          simp only [hne, Bool.false_eq_true, if_false, View.MoveCursor, Int.add_zero]
          congr 3
          omega
        · push_cast
          omega
        · intro r2 c2 hm
          by_cases heq : r2 = v.cy
          · refine Or.inr ⟨heq.symm, ?_⟩
            subst heq
            have hc := hm.2.2 rfl
            by_contra hlt
            have h5 := h3 (c2 - (v.cx + 1).toNat) (by omega)
            have h4 := (hhas c2).mp hm.2.1
            rw [OccursAt, hdd c2 (by omega), h5] at h4
            exact Bool.false_ne_true h4
          · exact Or.inl (by have := hm.1; omega)
    · rw [if_neg hg]
      apply hconv
      intro c hc hh
      have := occursAt_length s c ((hhas c).mp hh)
      omega
  · have hl := line_outside v v.cy (by omega)
    rw [searchLoop]
    simp only [Int.add_zero, hl]
    refine ⟨v, by simp, Or.inr ⟨?_, rfl⟩⟩
    intro r c hm
    have ho := line_outside v r (by have := hm.1; omega)
    have hh := hm.2.1
    simp [LineHas, ho] at hh

/-- Two first matches are the same match. -/
theorem isFirstMatch_unique (v : View) (r r2 : Int) (c c2 : Nat)
    (h : IsFirstMatch v r c) (h2 : IsFirstMatch v r2 c2) : r = r2 ∧ c = c2 := by
  have a := h.2 r2 c2 h2.1
  have b := h2.2 r c h.1
  omega

/-- C7: from a cursor `(x, y)` with `x ≥ 0` and `y ≥ 0`, on any buffer, `search`
returns nil, with the fuel it is given and with any larger one.  When a first match
exists (the first row from `y` on whose line holds the pattern, right of `x` on row
`y` itself, at the leftmost such column, columns being byte offsets) the cursor ends
on it and nothing else of the view changes; when no match exists the view is
unchanged; and one of the two is the case. -/
theorem search_first_match (g : Gui) (v : View) (hx : 0 ≤ v.cx) (hy : 0 ≤ v.cy) :
    ∃ w, search g v = .ok (g, w, none) ∧
      (∀ fuel, v.lines.length + 1 ≤ fuel → searchFuel fuel g v = .ok (g, w, none)) ∧
      (∀ (r : Int) (c : Nat), IsFirstMatch v r c →
        w = { v with cx := c, cy := r } ∧ w.Cursor = ((c : Int), r)) ∧
      ((∀ r c, ¬ IsMatch v r c) → w = v) ∧
      ((∃ (r : Int) (c : Nat), IsFirstMatch v r c) ∨ (∀ r c, ¬ IsMatch v r c)) := by
  obtain ⟨w, hw, hres⟩ := searchFuel_result g v hx hy (v.lines.length + 1) (le_refl _)
  have hfirst : ∀ (r : Int) (c : Nat), IsFirstMatch v r c → w = { v with cx := c, cy := r } := by
    intro r c h
    rcases hres with ⟨r2, c2, h2, hw2⟩ | ⟨hnone, _⟩
    · obtain ⟨hr, hc⟩ := isFirstMatch_unique v r r2 c c2 h h2
      subst hr hc
      exact hw2
    · exact absurd h.1 (hnone r c)
  have hno : (∀ r c, ¬ IsMatch v r c) → w = v := by
    intro h
    rcases hres with ⟨r2, c2, h2, _⟩ | ⟨_, hw2⟩
    · exact absurd h2.1 (h r2 c2)
    · exact hw2
  refine ⟨w, hw, fun fuel hfuel => ?_, fun r c h => ⟨hfirst r c h, ?_⟩, hno, ?_⟩
  · obtain ⟨w2, hw2, hres2⟩ := searchFuel_result g v hx hy fuel hfuel
    rcases hres2 with ⟨r2, c2, h2, e2⟩ | ⟨hnone, e2⟩
    · rw [hw2, e2, hfirst r2 c2 h2]
    · rw [hw2, e2, hno hnone]
  · rw [hfirst r c h]
    rfl
  · rcases hres with ⟨r2, c2, h2, _⟩ | ⟨hnone, _⟩
    · exact Or.inl ⟨r2, c2, h2⟩
    · exact Or.inr hnone

/-- C7 on the buffer "un deux" / "xdeux deux" / "trois": from the cursor (3, 0), which
is on the `d` of the first row, the occurrence on column 1 of row 1 is the first match,
and the cursor ends there. -/
theorem search_first_match_witness :
    IsFirstMatch sampleText 1 1 ∧
    ∃ w, search sampleGui sampleText = .ok (sampleGui, w, none) ∧ w.Cursor = (1, 1) := by
  obtain ⟨w, hw, _, hfirst, _, hcase⟩ :=
    search_first_match sampleGui sampleText (by decide) (by decide)
  have e : search sampleGui sampleText =
      .ok (sampleGui, { sampleText with cx := 1, cy := 1 }, none) := by rfl
  have hw2 : w = { sampleText with cx := 1, cy := 1 } := by
    rw [e] at hw
    injection hw with hw
    injection hw with _ hw
    injection hw with hw _
    exact hw.symm
  have ho : OccursAt (sampleText.Line 1).1 1 := by
    unfold OccursAt
    decide
  have hm : IsMatch sampleText 1 1 := ⟨by decide, ⟨by decide, ho⟩, by decide⟩
  refine ⟨?_, w, hw, by rw [hw2]; rfl⟩
  rcases hcase with ⟨r, c, hrc⟩ | hnone
  · have h1 := (hfirst r c hrc).1
    rw [hw2] at h1
    have hr : (1 : Int) = r := congrArg View.cy h1
    have hc : (1 : Int) = (c : Int) := congrArg View.cx h1
    have hc2 : c = 1 := by omega
    subst hr hc2
    exact hrc
  · exact absurd hm (hnone 1 1)

end Stretto
